import Mathlib

set_option maxRecDepth 4000
set_option maxHeartbeats 1000000

/-! Shallow embedding of `src/target/numicro_m032.c` (Nuvoton M032 flash
driver of the Black Magic Debug fork).  The debug transport is modelled by an
environment `env : Nat → Nat` giving the 32-bit value returned by the k-th
register read of the session; the machine state records the number of reads
performed so far, the trace of raw register accesses and delays, and the
abstract log of issued ISP commands (one entry per `nu_m032_fmc_cmd` call). -/

/-- Trace event: a 32-bit register write, a register read together with the
value the device returned, or a millisecond busy delay. -/
inductive Event where
  | wr (a v : Nat)
  | rd (a v : Nat)
  | delay (ms : Nat)
deriving DecidableEq, Repr

/-- One issued ISP command: opcode, target address and the write-payload
argument, as passed to `nu_m032_fmc_cmd`. -/
structure IspCmd where
  cmd : Nat
  addr : Nat
  wdata : Nat
deriving DecidableEq, Repr

/-- State of the embedding: read counter (index into the environment), full
access trace, and the issued ISP-command log. -/
structure St where
  reads : Nat
  trace : List Event
  cmds : List IspCmd
deriving DecidableEq, Repr

/-- The empty starting state. -/
def st0 : St := { reads := 0, trace := [], cmds := [] }

-- Register and bit constants, from the `#define` block of the source file.

def NUMICRO_APROM_BASE : Nat := 0x00000000
def NUMICRO_LDROM_BASE : Nat := 0x00100000
def NUMICRO_SPROM_BASE : Nat := 0x00200000
def NUMICRO_SPROM_BASE2 : Nat := 0x00240000
def NUMICRO_SPROM_BASE3 : Nat := 0x00280000
def NUMICRO_CONFIG_BASE : Nat := 0x00300000
def NUMICRO_CONFIG0 : Nat := NUMICRO_CONFIG_BASE
def NUMICRO_CONFIG1 : Nat := NUMICRO_CONFIG_BASE + 4
def NUMICRO_CONFIG2 : Nat := NUMICRO_CONFIG_BASE + 8
def NUMICRO_SYSCLK_AHBCLK : Nat := 0x40000204
def NUMICRO_FLASH_ISPCON : Nat := 0x4000C000
def NUMICRO_FLASH_ISPADR : Nat := 0x4000C004
def NUMICRO_FLASH_ISPDAT : Nat := 0x4000C008
def NUMICRO_FLASH_ISPCMD : Nat := 0x4000C00C
def NUMICRO_FLASH_ISPTRG : Nat := 0x4000C010
def NUMICRO_CHIP_ID_ADDRESS : Nat := 0x40000000
def NUMICRO_SYS_REGLCTL : Nat := 0x40000100

def AHBCLK_ISP_EN : Nat := 4
def ISPCON_ISPEN : Nat := 1
def ISPCON_BS_MASK : Nat := 2
def ISPCON_SPUEN : Nat := 4
def ISPCON_APUEN : Nat := 8
def ISPCON_CFGUEN : Nat := 16
def ISPCON_LDUEN : Nat := 32
def ISPCON_ISPFF : Nat := 64
def CONFIG0_LOCK_MASK : Nat := 2

def FMC_ISPCMD_READ : Nat := 0x00
def FMC_ISPCMD_WRITE : Nat := 0x21
def FMC_ISPCMD_ERASE : Nat := 0x22
def FMC_ISPCMD_CHIPERASE : Nat := 0x26
def FMC_ISPCMD_READ_CID : Nat := 0x0B
def FMC_ISPCMD_READ_UID : Nat := 0x04
def ISPTRG_ISPGO : Nat := 1

def NUMICRO_APROM_SIZE : Nat := 0x10000
def NUMICRO_LDROM_SIZE : Nat := 0x800
def NUMICRO_SPROM_SIZE : Nat := 0x200
def NUMICRO_PAGESIZE : Nat := 512

-- Debug-transport primitives (external collaborators of the file; modelled
-- at their interface boundary as trace-extending operations).

/-- Raw 32-bit register write over the debug transport. -/
def target_mem_write32 (a v : Nat) (s : St) : St :=
  { s with trace := s.trace ++ [Event.wr a v] }

/-- Raw 32-bit register read over the debug transport; the returned value is
the environment's answer for the current read index, truncated to 32 bits. -/
def target_mem_read32 (env : Nat → Nat) (a : Nat) (s : St) : Nat × St :=
  let v := env s.reads % 2 ^ 32
  (v, { s with reads := s.reads + 1, trace := s.trace ++ [Event.rd a v] })

/-- Millisecond busy delay. -/
def platform_delay (ms : Nat) (s : St) : St :=
  { s with trace := s.trace ++ [Event.delay ms] }

/-- Instrumentation: record one issued ISP command (one `nu_m032_fmc_cmd`
invocation) in the abstract command log. -/
def logCmd (cmd addr wdata : Nat) (s : St) : St :=
  { s with cmds := s.cmds ++ [{ cmd := cmd, addr := addr, wdata := wdata }] }

/-- `nu_m032_reg_unlock`: writes the three unlock keys 0x59, 0x16, 0x88 to
SYS_REGLCTL, reads the register back (value only feeds a diagnostic message),
and unconditionally returns true. -/
def nu_m032_reg_unlock (env : Nat → Nat) (s : St) : Bool × St :=
  let s1 := target_mem_write32 NUMICRO_SYS_REGLCTL 0x59 s
  let s2 := target_mem_write32 NUMICRO_SYS_REGLCTL 0x16 s1
  let s3 := target_mem_write32 NUMICRO_SYS_REGLCTL 0x88 s2
  let p := target_mem_read32 env NUMICRO_SYS_REGLCTL s3
  (true, p.2)

/-- `nu_m032_init_isp`: unlock registers, abort with -1 if the unlock reports
failure (it never does), then read-modify-write AHBCLK to set the ISP clock
enable, delay, read-modify-write ISPCON to set ISPFF, ISPEN and the caller's
extra region-unlock bits, delay, and return 0. -/
def nu_m032_init_isp (env : Nat → Nat) (uExtraconf : Nat) (s : St) : Int × St :=
  let p := nu_m032_reg_unlock env s
  if p.1 ≠ true then (-1, p.2)
  else
    let q := target_mem_read32 env NUMICRO_SYSCLK_AHBCLK p.2
    let s1 := target_mem_write32 NUMICRO_SYSCLK_AHBCLK (q.1 ||| AHBCLK_ISP_EN) q.2
    let s2 := platform_delay 100 s1
    let r := target_mem_read32 env NUMICRO_FLASH_ISPCON s2
    let s3 := target_mem_write32 NUMICRO_FLASH_ISPCON
      (r.1 ||| ISPCON_ISPFF ||| ISPCON_ISPEN ||| uExtraconf) r.2
    let s4 := platform_delay 100 s3
    (0, s4)

/-- The polling loop of `nu_m032_fmc_cmd`: read ISPTRG; if the GO bit is
clear, completion (true); otherwise, when the countdown (C: `timeout-- <= 0`
on an unsigned counter, i.e. counter = 0) is exhausted, timeout (false), else
delay 1 ms and poll again.  The counter starts at 100, so at most 101 reads
occur. -/
def pollIspgo (env : Nat → Nat) : Nat → St → Bool × St
  | 0, s =>
    let p := target_mem_read32 env NUMICRO_FLASH_ISPTRG s
    if p.1 &&& ISPTRG_ISPGO = 0 then (true, p.2) else (false, p.2)
  | t + 1, s =>
    let p := target_mem_read32 env NUMICRO_FLASH_ISPTRG s
    if p.1 &&& ISPTRG_ISPGO = 0 then (true, p.2)
    else pollIspgo env t (platform_delay 1 p.2)

/-- The register writes of `nu_m032_fmc_cmd` up to and including the trigger:
opcode to ISPCMD, address to ISPADR, payload to ISPDAT only for the write
opcode, then the GO bit to ISPTRG.  Also logs the abstract command. -/
def fmcPre (cmd addr wdata : Nat) (s : St) : St :=
  let s1 := logCmd cmd addr wdata s
  let s2 := target_mem_write32 NUMICRO_FLASH_ISPCMD cmd s1
  let s3 := target_mem_write32 NUMICRO_FLASH_ISPADR addr s2
  let s4 := if cmd = FMC_ISPCMD_WRITE
    then target_mem_write32 NUMICRO_FLASH_ISPDAT wdata s3 else s3
  target_mem_write32 NUMICRO_FLASH_ISPTRG ISPTRG_ISPGO s4

/-- `nu_m032_fmc_cmd`: issue one ISP command and poll for completion.  On
timeout the function returns at once (the caller's rdata is left unchanged
and ISPCON is not touched).  On completion it reads ISPCON, writes the value
back if the ISPFF flag-fail bit is set, and for the read opcode re-reads
ISPDAT as the result. -/
def nu_m032_fmc_cmd (env : Nat → Nat) (cmd addr wdata rdata : Nat) (s : St) : Nat × St :=
  let pr := pollIspgo env 100 (fmcPre cmd addr wdata s)
  if pr.1 then
    let q := target_mem_read32 env NUMICRO_FLASH_ISPCON pr.2
    let s3 := if q.1 &&& ISPCON_ISPFF ≠ 0
      then target_mem_write32 NUMICRO_FLASH_ISPCON q.1 q.2 else q.2
    if cmd = FMC_ISPCMD_READ then target_mem_read32 env NUMICRO_FLASH_ISPDAT s3
    else (rdata, s3)
  else (rdata, pr.2)

/-- Whether the polling loop of a `nu_m032_fmc_cmd` invocation sees the GO
bit clear within the budget (completion) rather than timing out. -/
def fmcCompleted (env : Nat → Nat) (cmd addr wdata : Nat) (s : St) : Bool :=
  (pollIspgo env 100 (fmcPre cmd addr wdata s)).1

/-- The page-erase loop shared by `nu_m032_flash_erase` and the erase command
handlers: while the remaining size is nonzero, issue an erase command at the
current address, advance the address by the 512-byte page (32-bit wrap),
decrement the remaining size by the page (64-bit `size_t` wrap), and delay
100 ms.  A misaligned size makes the C loop run forever (the unsigned
countdown never reaches 0); the fuel returns `none` in that case. -/
def eraseLoop (env : Nat → Nat) : Nat → Nat → Nat → Nat → St → Option (Nat × St)
  | 0, szSize, _, rs, s => if szSize = 0 then some (rs, s) else none
  | fuel + 1, szSize, uAddr, rs, s =>
    if szSize = 0 then some (rs, s)
    else
      let p := nu_m032_fmc_cmd env FMC_ISPCMD_ERASE uAddr 0 rs s
      let s2 := platform_delay 100 p.2
      eraseLoop env fuel ((szSize + (2 ^ 64 - NUMICRO_PAGESIZE)) % 2 ^ 64)
        ((uAddr + NUMICRO_PAGESIZE) % 2 ^ 32) p.1 s2

/-- The word-write loop of `nu_m032_flash_write`: while the remaining size is
nonzero, fetch the next 32-bit word of the source buffer, issue a write
command with it, advance the address by 4 and the buffer index by one,
decrement the remaining size by 4 (`size_t` wrap), and delay 10 ms. -/
def writeLoop (env : Nat → Nat) (buf : Nat → Nat) :
    Nat → Nat → Nat → Nat → Nat → St → Option (Nat × St)
  | 0, szSize, _, _, rs, s => if szSize = 0 then some (rs, s) else none
  | fuel + 1, szSize, uAddr, i, rs, s =>
    if szSize = 0 then some (rs, s)
    else
      let uRegWrite := buf i % 2 ^ 32
      let p := nu_m032_fmc_cmd env FMC_ISPCMD_WRITE uAddr uRegWrite rs s
      let s2 := platform_delay 10 p.2
      writeLoop env buf fuel ((szSize + (2 ^ 64 - 4)) % 2 ^ 64)
        ((uAddr + 4) % 2 ^ 32) (i + 1) p.1 s2

/-- The page-read loop of `nu_m032_read_aprom_page1`: while the remaining
size is nonzero, reset the sample to 0, issue a read command at the current
address, and advance by 4 bytes (no inter-command delay). -/
def readPageLoop (env : Nat → Nat) : Nat → Nat → Nat → St → Option St
  | 0, szSize, _, s => if szSize = 0 then some s else none
  | fuel + 1, szSize, uAddr, s =>
    if szSize = 0 then some s
    else
      let p := nu_m032_fmc_cmd env FMC_ISPCMD_READ uAddr 0 0 s
      readPageLoop env fuel ((szSize + (2 ^ 64 - 4)) % 2 ^ 64)
        ((uAddr + 4) % 2 ^ 32) p.2

/-- `nu_m032_flash_erase`: initialize the ISP engine with the APROM and LDROM
unlock bits (aborting — C `return false`, which is int 0 — if the init fails,
which it never does), then run the page-erase loop over `[addr, addr+len)`
with the sample register starting at 0. -/
def nu_m032_flash_erase (env : Nat → Nat) (addr len : Nat) (s : St) : Option (Int × St) :=
  let p := nu_m032_init_isp env (ISPCON_APUEN ||| ISPCON_LDUEN) s
  if p.1 ≠ 0 then some (0, p.2)
  else
    match eraseLoop env len (len % 2 ^ 64) (addr % 2 ^ 32) 0 p.2 with
    | none => none
    | some q => some (0, q.2)

/-- `nu_m032_flash_write`: run the word-write loop over the destination range
(no engine re-initialization, unlike erase); the C sample variable is
uninitialized but never observed, modelled as 0. -/
def nu_m032_flash_write (env : Nat → Nat) (dest : Nat) (buf : Nat → Nat) (len : Nat)
    (s : St) : Option (Int × St) :=
  match writeLoop env buf len (len % 2 ^ 64) (dest % 2 ^ 32) 0 0 s with
  | none => none
  | some q => some (0, q.2)

/-- `nu_m032_cmd_erase_aprom`: init with the APROM unlock bit, erase the
whole 0x10000-byte APROM in 512-byte pages starting at 0, return true. -/
def nu_m032_cmd_erase_aprom (env : Nat → Nat) (s : St) : Option (Bool × St) :=
  let p := nu_m032_init_isp env ISPCON_APUEN s
  if p.1 ≠ 0 then some (false, p.2)
  else
    match eraseLoop env NUMICRO_APROM_SIZE NUMICRO_APROM_SIZE NUMICRO_APROM_BASE 0 p.2 with
    | none => none
    | some q => some (true, q.2)

/-- `nu_m032_cmd_erase_ldrom`: init with the LDROM unlock bit, erase the
whole 0x800-byte LDROM in 512-byte pages starting at 0x100000, return true. -/
def nu_m032_cmd_erase_ldrom (env : Nat → Nat) (s : St) : Option (Bool × St) :=
  let p := nu_m032_init_isp env ISPCON_LDUEN s
  if p.1 ≠ 0 then some (false, p.2)
  else
    match eraseLoop env NUMICRO_LDROM_SIZE NUMICRO_LDROM_SIZE NUMICRO_LDROM_BASE 0 p.2 with
    | none => none
    | some q => some (true, q.2)

/-- `nu_m032_cmd_erase_sprom`: init with the SPROM unlock bit, erase the
whole 0x200-byte SPROM in 512-byte pages starting at 0x200000, return true. -/
def nu_m032_cmd_erase_sprom (env : Nat → Nat) (s : St) : Option (Bool × St) :=
  let p := nu_m032_init_isp env ISPCON_SPUEN s
  if p.1 ≠ 0 then some (false, p.2)
  else
    match eraseLoop env NUMICRO_SPROM_SIZE NUMICRO_SPROM_SIZE NUMICRO_SPROM_BASE 0 p.2 with
    | none => none
    | some q => some (true, q.2)

/-- `nu_m032_cmd_erase_mass`: run the APROM erase then the LDROM erase
(ignoring their results; the SPROM erase call is commented out in the
source), and return true. -/
def nu_m032_cmd_erase_mass (env : Nat → Nat) (s : St) : Option (Bool × St) :=
  match nu_m032_cmd_erase_aprom env s with
  | none => none
  | some a =>
    match nu_m032_cmd_erase_ldrom env a.2 with
    | none => none
    | some b => some (true, b.2)

/-- `nu_m032_cmd_erase_chip`: init with all three region-unlock bits
(APROM, LDROM, SPROM), issue the single undocumented chip-erase command at
address 0 with payload argument 0, delay 100 ms, return true. -/
def nu_m032_cmd_erase_chip (env : Nat → Nat) (s : St) : Bool × St :=
  let p := nu_m032_init_isp env (ISPCON_APUEN ||| ISPCON_LDUEN ||| ISPCON_SPUEN) s
  if p.1 ≠ 0 then (false, p.2)
  else
    let q := nu_m032_fmc_cmd env FMC_ISPCMD_CHIPERASE 0x0 0x0 0 p.2
    let s2 := platform_delay 100 q.2
    (true, s2)

/-- `nu_m032_set_config0`: unimplemented stub; touches nothing and returns
true. -/
def nu_m032_set_config0 (s : St) : Bool × St := (true, s)

/-- `nu_m032_set_config1`: unimplemented stub; touches nothing and returns
true. -/
def nu_m032_set_config1 (s : St) : Bool × St := (true, s)

/-- `nu_m032_set_config2`: unimplemented stub; touches nothing and returns
true. -/
def nu_m032_set_config2 (s : St) : Bool × St := (true, s)

/-- `nu_m032_read_configs`: init with no extra unlock bits, read CONFIG0/1/2
via the read opcode (results feed diagnostics and the bit-7 / bit-1
interpretation), then read ISPCON directly for the live boot-source bit, and
return true. -/
def nu_m032_read_configs (env : Nat → Nat) (s : St) : Bool × St :=
  let p := nu_m032_init_isp env 0 s
  if p.1 ≠ 0 then (false, p.2)
  else
    let q0 := nu_m032_fmc_cmd env FMC_ISPCMD_READ NUMICRO_CONFIG0 0 0xABCDABCD p.2
    let q1 := nu_m032_fmc_cmd env FMC_ISPCMD_READ NUMICRO_CONFIG1 0 0xABCDABCD q0.2
    let q2 := nu_m032_fmc_cmd env FMC_ISPCMD_READ NUMICRO_CONFIG2 0 0xABCDABCD q1.2
    let r := target_mem_read32 env NUMICRO_FLASH_ISPCON q2.2
    (true, r.2)

/-- `nu_m032_read_uid`: init with no extra unlock bits, issue three
read-unique-id commands at offsets 0, 4, 8, return true. -/
def nu_m032_read_uid (env : Nat → Nat) (s : St) : Bool × St :=
  let p := nu_m032_init_isp env 0 s
  if p.1 ≠ 0 then (false, p.2)
  else
    let q0 := nu_m032_fmc_cmd env FMC_ISPCMD_READ_UID 0x00 0 0 p.2
    let q1 := nu_m032_fmc_cmd env FMC_ISPCMD_READ_UID 0x04 0 0 q0.2
    let q2 := nu_m032_fmc_cmd env FMC_ISPCMD_READ_UID 0x08 0 0 q1.2
    (true, q2.2)

/-- `nu_m032_read_cid`: init with no extra unlock bits, issue four
read-chip-id commands at offsets 0, 4, 8, 12, return true. -/
def nu_m032_read_cid (env : Nat → Nat) (s : St) : Bool × St :=
  let p := nu_m032_init_isp env 0 s
  if p.1 ≠ 0 then (false, p.2)
  else
    let q0 := nu_m032_fmc_cmd env FMC_ISPCMD_READ_CID 0x00 0 0 p.2
    let q1 := nu_m032_fmc_cmd env FMC_ISPCMD_READ_CID 0x04 0 0 q0.2
    let q2 := nu_m032_fmc_cmd env FMC_ISPCMD_READ_CID 0x08 0 0 q1.2
    let q3 := nu_m032_fmc_cmd env FMC_ISPCMD_READ_CID 0x0C 0 0 q2.2
    (true, q3.2)

/-- `nu_m032_read_aprom_page1`: init with no extra unlock bits, read the
first 512-byte APROM page word by word, then the second page, return true. -/
def nu_m032_read_aprom_page1 (env : Nat → Nat) (s : St) : Option (Bool × St) :=
  let p := nu_m032_init_isp env 0 s
  if p.1 ≠ 0 then some (false, p.2)
  else
    match readPageLoop env NUMICRO_PAGESIZE NUMICRO_PAGESIZE NUMICRO_APROM_BASE p.2 with
    | none => none
    | some s1 =>
      match readPageLoop env NUMICRO_PAGESIZE NUMICRO_PAGESIZE
          (NUMICRO_APROM_BASE + NUMICRO_PAGESIZE) s1 with
      | none => none
      | some s2 => some (true, s2)

/-- One registered flash region, with the fields `nu_m032_add_flash` fills in
on the generic flash object (the erase/write function pointers it also sets
are `nu_m032_flash_erase` and `nu_m032_flash_write`, embedded above). -/
structure FlashRegion where
  start : Nat
  length : Nat
  blocksize : Nat
  bufSize : Nat
  erased : Nat
deriving DecidableEq, Repr

/-- Modelled from the spec: the target object of the host framework
(`target_internal.h` is not part of this repository's sources).  It carries
the core identifier, the 32-bit device-identifier field `idcode`, the driver
name, and the registered RAM regions, flash regions and command surface. -/
structure Target where
  cpuid : Nat
  idcode : Nat
  driver : String
  ramRegions : List (Nat × Nat)
  flashRegions : List FlashRegion
  commandsRegistered : Bool
deriving DecidableEq, Repr

/-- Modelled from the spec: `CPUID_PARTNO_MASK` of `cortexm.h` (not in this
repository's sources), the part-number field of the CPUID register. -/
def CPUID_PARTNO_MASK : Nat := 0xFFF0

/-- Modelled from the spec: `CORTEX_M0` of `cortexm.h` (not in this
repository's sources), the expected Cortex-M0 part number. -/
def CORTEX_M0 : Nat := 0xC200

/-- Modelled from the spec: `target_add_ram` of the host framework records a
RAM region on the target. -/
def target_add_ram (t : Target) (base size : Nat) : Target :=
  { t with ramRegions := t.ramRegions ++ [(base, size)] }

/-- `nu_m032_add_flash`: allocate a flash object, fill in start, length,
blocksize, buf_size := erasesize and erased := 0xff, wire the erase and
write handlers, and register it (allocation is modelled as succeeding). -/
def nu_m032_add_flash (t : Target) (addr length erasesize : Nat) : Target :=
  { t with flashRegions := t.flashRegions ++
      [{ start := addr, length := length, blocksize := erasesize,
         bufSize := erasesize, erased := 0xff }] }

/-- `nu_m032_probe`: save the pre-probe identifier into a 16-bit local
(`uint16_t stored_idcode = t->idcode`, so only the low 16 bits survive); if
the core is a Cortex-M0, read the chip-ID register (else it stays 0); on the
exact value 0x01132D00 install the driver name, the RAM region, the APROM,
LDROM and CONFIG flash regions and the command list and return true; on any
other value write the saved 16-bit value back to the identifier field and
return false. -/
def nu_m032_probe (env : Nat → Nat) (t : Target) (s : St) : Bool × Target × St :=
  let stored_idcode := t.idcode % 2 ^ 16
  let p :=
    if t.cpuid &&& CPUID_PARTNO_MASK = CORTEX_M0
    then target_mem_read32 env NUMICRO_CHIP_ID_ADDRESS s
    else (0, s)
  let uChipID := p.1
  if uChipID = 0x01132D00 then
    let t1 := { t with driver := "M032LD2AE" }
    let t2 := target_add_ram t1 0x20000000 0x2000
    let t3 := nu_m032_add_flash t2 NUMICRO_APROM_BASE NUMICRO_APROM_SIZE NUMICRO_PAGESIZE
    let t4 := nu_m032_add_flash t3 NUMICRO_LDROM_BASE 0x800 NUMICRO_PAGESIZE
    let t5 := nu_m032_add_flash t4 NUMICRO_CONFIG_BASE 12 4
    let t6 := { t5 with commandsRegistered := true }
    (true, t6, p.2)
  else
    (false, { t with idcode := stored_idcode }, p.2)

-- Predicates used by the theorems.

/-- Whether an event is a read or write of the register at address `a`. -/
def touchesAddr (a : Nat) : Event → Bool
  | Event.wr b _ => b = a
  | Event.rd b _ => b = a
  | Event.delay _ => false

/-- Address accessed by an event, if any. -/
def eventAddr : Event → Option Nat
  | Event.wr a _ => some a
  | Event.rd a _ => some a
  | Event.delay _ => none

/-- Event discipline: writes only to registers in `wa`, reads only from
registers in `ra`, delays unrestricted. -/
def evOk (wa ra : List Nat) : Event → Prop
  | Event.wr a _ => a ∈ wa
  | Event.rd a _ => a ∈ ra
  | Event.delay _ => True

/-- The trace of `s2` extends the trace of `s1` by events satisfying `P`. -/
def TraceExt (P : Event → Prop) (s1 s2 : St) : Prop :=
  ∃ u, s2.trace = s1.trace ++ u ∧ ∀ e ∈ u, P e

/-- An address inside the security (SPROM) region, at any of its three base
addresses. -/
def inSecurityRegion (a : Nat) : Prop :=
  (NUMICRO_SPROM_BASE ≤ a ∧ a < NUMICRO_SPROM_BASE + NUMICRO_SPROM_SIZE) ∨
  (NUMICRO_SPROM_BASE2 ≤ a ∧ a < NUMICRO_SPROM_BASE2 + NUMICRO_SPROM_SIZE) ∨
  (NUMICRO_SPROM_BASE3 ≤ a ∧ a < NUMICRO_SPROM_BASE3 + NUMICRO_SPROM_SIZE)

/-- An event touching an address of the security region. -/
def touchesSecurity (e : Event) : Prop :=
  ∃ a, eventAddr e = some a ∧ inSecurityRegion a

/-- The registers `nu_m032_fmc_cmd` may write: command, address, data,
trigger, and the ISP-control register (the flag-fail clear). -/
def fmcW : List Nat :=
  [NUMICRO_FLASH_ISPCMD, NUMICRO_FLASH_ISPADR, NUMICRO_FLASH_ISPDAT,
   NUMICRO_FLASH_ISPTRG, NUMICRO_FLASH_ISPCON]

/-- The registers `nu_m032_fmc_cmd` may read: trigger and ISP-control, plus
the data register only for the read opcode. -/
def fmcR (c : Nat) : List Nat :=
  if c = FMC_ISPCMD_READ
  then [NUMICRO_FLASH_ISPTRG, NUMICRO_FLASH_ISPCON, NUMICRO_FLASH_ISPDAT]
  else [NUMICRO_FLASH_ISPTRG, NUMICRO_FLASH_ISPCON]

/-- All memory-mapped device registers the driver ever accesses. -/
def deviceRegs : List Nat :=
  [NUMICRO_SYS_REGLCTL, NUMICRO_SYSCLK_AHBCLK, NUMICRO_CHIP_ID_ADDRESS,
   NUMICRO_FLASH_ISPCON, NUMICRO_FLASH_ISPADR, NUMICRO_FLASH_ISPDAT,
   NUMICRO_FLASH_ISPCMD, NUMICRO_FLASH_ISPTRG]

-- Concrete inputs used by counterexamples and witnesses.

/-- Environment whose reads always return 1: the GO bit never clears, so
every command times out. -/
def envBusy : Nat → Nat := fun _ => 1

/-- Environment whose reads always return 64: the GO bit reads clear (bit 0
of 64 is 0) so commands complete at once, and ISPCON reads back with the
ISPFF flag-fail bit (bit 6) set. -/
def envFF : Nat → Nat := fun _ => 64

/-- Environment whose reads always return 0: commands complete at once and
no flag-fail is seen. -/
def envZero : Nat → Nat := fun _ => 0

/-- A constant-zero source buffer. -/
def bufZero : Nat → Nat := fun _ => 0

/-- Environment whose reads always return the expected chip-ID value
0x01132D00. -/
def envChip : Nat → Nat := fun _ => 0x01132D00

/-- A target whose core matches the Cortex-M0 family and whose pre-probe
identifier 0x10001 does not fit in 16 bits. -/
def tWide : Target :=
  { cpuid := 0xC200, idcode := 0x10001, driver := "", ramRegions := [],
    flashRegions := [], commandsRegistered := false }

/-- A target whose core matches the Cortex-M0 family, with a 16-bit
pre-probe identifier. -/
def tNarrow : Target :=
  { cpuid := 0xC200, idcode := 0x1234, driver := "", ramRegions := [],
    flashRegions := [], commandsRegistered := false }

-- Infrastructure lemmas.

theorem TraceExt_refl (P : Event → Prop) (s : St) : TraceExt P s s :=
  ⟨[], by simp, by simp⟩

theorem TraceExt_trans {P : Event → Prop} {s1 s2 s3 : St}
    (h1 : TraceExt P s1 s2) (h2 : TraceExt P s2 s3) : TraceExt P s1 s3 := by
  obtain ⟨u, hu, hPu⟩ := h1
  obtain ⟨v, hv, hPv⟩ := h2
  refine ⟨u ++ v, by rw [hv, hu, List.append_assoc], ?_⟩
  intro e he
  rcases List.mem_append.mp he with h | h
  · exact hPu e h
  · exact hPv e h

theorem TraceExt_mono {P Q : Event → Prop} {s1 s2 : St}
    (h : ∀ e, P e → Q e) (ht : TraceExt P s1 s2) : TraceExt Q s1 s2 := by
  obtain ⟨u, hu, hPu⟩ := ht
  exact ⟨u, hu, fun e he => h e (hPu e he)⟩

theorem TraceExt_wr {P : Event → Prop} (a v : Nat) (s : St)
    (h : P (Event.wr a v)) : TraceExt P s (target_mem_write32 a v s) :=
  ⟨[Event.wr a v], rfl, by simpa⟩

theorem TraceExt_rd {P : Event → Prop} (env : Nat → Nat) (a : Nat) (s : St)
    (h : ∀ v, P (Event.rd a v)) : TraceExt P s (target_mem_read32 env a s).2 :=
  ⟨[Event.rd a (env s.reads % 2 ^ 32)], rfl, by simpa using h _⟩

theorem TraceExt_delay {P : Event → Prop} (ms : Nat) (s : St)
    (h : P (Event.delay ms)) : TraceExt P s (platform_delay ms s) :=
  ⟨[Event.delay ms], rfl, by simpa⟩

@[simp] theorem wr32_cmds (a v : Nat) (s : St) :
    (target_mem_write32 a v s).cmds = s.cmds := rfl

@[simp] theorem rd32_cmds (env : Nat → Nat) (a : Nat) (s : St) :
    ((target_mem_read32 env a s).2).cmds = s.cmds := rfl

@[simp] theorem delay_cmds (ms : Nat) (s : St) :
    (platform_delay ms s).cmds = s.cmds := rfl

@[simp] theorem logCmd_cmds (c a w : Nat) (s : St) :
    (logCmd c a w s).cmds = s.cmds ++ [{ cmd := c, addr := a, wdata := w }] := rfl

@[simp] theorem pollIspgo_cmds (env : Nat → Nat) :
    ∀ (t : Nat) (s : St), ((pollIspgo env t s).2).cmds = s.cmds := by
  intro t
  induction t with
  | zero =>
    intro s
    simp only [pollIspgo]
    split
    · rfl
    · rfl
  | succ t ih =>
    intro s
    simp only [pollIspgo]
    split
    · rfl
    · rw [ih]; rfl

theorem pollIspgo_TraceExt (env : Nat → Nat) :
    ∀ (t : Nat) (s : St),
      TraceExt (evOk [] [NUMICRO_FLASH_ISPTRG]) s (pollIspgo env t s).2 := by
  intro t
  induction t with
  | zero =>
    intro s
    simp only [pollIspgo]
    split
    · exact TraceExt_rd env _ s (fun v => by simp [evOk])
    · exact TraceExt_rd env _ s (fun v => by simp [evOk])
  | succ t ih =>
    intro s
    simp only [pollIspgo]
    split
    · exact TraceExt_rd env _ s (fun v => by simp [evOk])
    · exact TraceExt_trans
        (TraceExt_trans (TraceExt_rd env _ s (fun v => by simp [evOk]))
          (TraceExt_delay 1 _ (by simp [evOk])))
        (ih _)

@[simp] theorem fmcPre_cmds (c a w : Nat) (s : St) :
    (fmcPre c a w s).cmds = s.cmds ++ [{ cmd := c, addr := a, wdata := w }] := by
  simp only [fmcPre]
  split <;> rfl

theorem fmcPre_trace (c a w : Nat) (s : St) :
    (fmcPre c a w s).trace =
      s.trace ++ ([Event.wr NUMICRO_FLASH_ISPCMD c, Event.wr NUMICRO_FLASH_ISPADR a] ++
        (if c = FMC_ISPCMD_WRITE then [Event.wr NUMICRO_FLASH_ISPDAT w] else []) ++
        [Event.wr NUMICRO_FLASH_ISPTRG ISPTRG_ISPGO]) := by
  simp only [fmcPre, logCmd, target_mem_write32]
  split <;> simp

@[simp] theorem fmc_cmds (env : Nat → Nat) (c a w r : Nat) (s : St) :
    ((nu_m032_fmc_cmd env c a w r s).2).cmds =
      s.cmds ++ [{ cmd := c, addr := a, wdata := w }] := by
  simp only [nu_m032_fmc_cmd]
  split_ifs <;> simp

theorem fmc_rdata (env : Nat → Nat) (c a w r : Nat) (s : St)
    (h : c ≠ FMC_ISPCMD_READ) : (nu_m032_fmc_cmd env c a w r s).1 = r := by
  simp only [nu_m032_fmc_cmd]
  split_ifs <;> simp_all

theorem fmc_rest_TraceExt (env : Nat → Nat) (c a w r : Nat) (s : St) :
    TraceExt (evOk [NUMICRO_FLASH_ISPCON] (fmcR c)) (fmcPre c a w s)
      ((nu_m032_fmc_cmd env c a w r s).2) := by
  have hpoll : TraceExt (evOk [NUMICRO_FLASH_ISPCON] (fmcR c)) (fmcPre c a w s)
      (pollIspgo env 100 (fmcPre c a w s)).2 := by
    refine TraceExt_mono ?_ (pollIspgo_TraceExt env 100 (fmcPre c a w s))
    intro e he
    cases e with
    | wr b v => simp [evOk] at he
    | rd b v =>
      simp [evOk] at he ⊢
      simp [he, fmcR]
      split <;> simp
    | delay ms => simp [evOk]
  have hcon : TraceExt (evOk [NUMICRO_FLASH_ISPCON] (fmcR c))
      (pollIspgo env 100 (fmcPre c a w s)).2
      (target_mem_read32 env NUMICRO_FLASH_ISPCON
        (pollIspgo env 100 (fmcPre c a w s)).2).2 := by
    refine TraceExt_rd env _ _ (fun v => ?_)
    simp [evOk, fmcR]
    split <;> simp
  simp only [nu_m032_fmc_cmd]
  split
  · split
    · -- read opcode: the ISPCON read/optional write, then the ISPDAT re-read
      rename_i hcmd
      split
      · exact TraceExt_trans
          (TraceExt_trans (TraceExt_trans hpoll hcon)
            (TraceExt_wr _ _ _ (by simp [evOk])))
          (TraceExt_rd env _ _ (fun v => by simp [evOk, fmcR, hcmd]))
      · exact TraceExt_trans (TraceExt_trans hpoll hcon)
          (TraceExt_rd env _ _ (fun v => by simp [evOk, fmcR, hcmd]))
    · refine TraceExt_trans (TraceExt_trans hpoll hcon) ?_
      split
      · exact TraceExt_wr _ _ _ (by simp [evOk])
      · exact TraceExt_refl _ _
  · exact hpoll

theorem TraceExt_of_eq {P : Event → Prop} {s1 s2 : St} (u : List Event)
    (h : s2.trace = s1.trace ++ u) (hu : ∀ e ∈ u, P e) : TraceExt P s1 s2 :=
  ⟨u, h, hu⟩

theorem TraceExt_logCmd {P : Event → Prop} (c a w : Nat) (s : St) :
    TraceExt P s (logCmd c a w s) :=
  ⟨[], by simp [logCmd], by simp⟩

theorem fmcPre_TraceExt (c a w : Nat) (s : St) :
    TraceExt (evOk fmcW (fmcR c)) s (fmcPre c a w s) := by
  refine TraceExt_of_eq _ (fmcPre_trace c a w s) ?_
  intro e he
  rcases List.mem_append.mp he with h | h
  · rcases List.mem_append.mp h with h2 | h2
    · simp at h2
      rcases h2 with rfl | rfl <;> simp [evOk, fmcW]
    · split at h2
      · simp at h2
        subst h2
        simp [evOk, fmcW]
      · simp at h2
  · simp at h
    subst h
    simp [evOk, fmcW]

theorem fmc_TraceExt (env : Nat → Nat) (c a w r : Nat) (s : St) :
    TraceExt (evOk fmcW (fmcR c)) s ((nu_m032_fmc_cmd env c a w r s).2) := by
  refine TraceExt_trans (fmcPre_TraceExt c a w s)
    (TraceExt_mono ?_ (fmc_rest_TraceExt env c a w r s))
  intro e he
  cases e with
  | wr b v =>
    simp [evOk] at he
    simp [evOk, he, fmcW]
  | rd b v => exact he
  | delay ms => simp [evOk]

theorem init_trace (env : Nat → Nat) (x : Nat) (s : St) :
    ((nu_m032_init_isp env x s).2).trace = s.trace ++
      [Event.wr NUMICRO_SYS_REGLCTL 0x59, Event.wr NUMICRO_SYS_REGLCTL 0x16,
       Event.wr NUMICRO_SYS_REGLCTL 0x88,
       Event.rd NUMICRO_SYS_REGLCTL (env s.reads % 2 ^ 32),
       Event.rd NUMICRO_SYSCLK_AHBCLK (env (s.reads + 1) % 2 ^ 32),
       Event.wr NUMICRO_SYSCLK_AHBCLK ((env (s.reads + 1) % 2 ^ 32) ||| AHBCLK_ISP_EN),
       Event.delay 100,
       Event.rd NUMICRO_FLASH_ISPCON (env (s.reads + 2) % 2 ^ 32),
       Event.wr NUMICRO_FLASH_ISPCON
         ((env (s.reads + 2) % 2 ^ 32) ||| ISPCON_ISPFF ||| ISPCON_ISPEN ||| x),
       Event.delay 100] := by
  simp [nu_m032_init_isp, nu_m032_reg_unlock, target_mem_write32, target_mem_read32,
    platform_delay]

@[simp] theorem init_fst (env : Nat → Nat) (x : Nat) (s : St) :
    (nu_m032_init_isp env x s).1 = 0 := by
  simp [nu_m032_init_isp, nu_m032_reg_unlock]

@[simp] theorem init_cmds (env : Nat → Nat) (x : Nat) (s : St) :
    ((nu_m032_init_isp env x s).2).cmds = s.cmds := by
  simp [nu_m032_init_isp, nu_m032_reg_unlock, target_mem_write32, target_mem_read32,
    platform_delay]

theorem init_TraceExt (env : Nat → Nat) (x : Nat) (s : St) :
    TraceExt (evOk [NUMICRO_SYS_REGLCTL, NUMICRO_SYSCLK_AHBCLK, NUMICRO_FLASH_ISPCON]
      [NUMICRO_SYS_REGLCTL, NUMICRO_SYSCLK_AHBCLK, NUMICRO_FLASH_ISPCON])
      s ((nu_m032_init_isp env x s).2) := by
  refine TraceExt_of_eq _ (init_trace env x s) ?_
  intro e he
  fin_cases he <;> simp [evOk]

theorem reg_unlock_fst (env : Nat → Nat) (s : St) :
    (nu_m032_reg_unlock env s).1 = true := rfl

theorem eraseLoop_spec (env : Nat → Nat) :
    ∀ (n fuel uA rs : Nat) (s : St), n ≤ fuel → n * NUMICRO_PAGESIZE < 2 ^ 64 →
      uA < 2 ^ 32 →
      ∃ s2, eraseLoop env fuel (n * NUMICRO_PAGESIZE) uA rs s = some (rs, s2) ∧
        s2.cmds = s.cmds ++ (List.range n).map
          (fun i => { cmd := FMC_ISPCMD_ERASE,
                      addr := (uA + NUMICRO_PAGESIZE * i) % 2 ^ 32, wdata := 0 }) ∧
        TraceExt (evOk fmcW (fmcR FMC_ISPCMD_ERASE)) s s2 := by
  intro n
  induction n with
  | zero =>
    intro fuel uA rs s _ _ _
    refine ⟨s, ?_, by simp, TraceExt_refl _ _⟩
    cases fuel <;> simp [eraseLoop]
  | succ n ih =>
    intro fuel uA rs s hfuel hsz huA
    cases fuel with
    | zero => omega
    | succ f =>
      have hne : ¬ (n + 1) * NUMICRO_PAGESIZE = 0 := by simp [NUMICRO_PAGESIZE]
      have hstep : ((n + 1) * NUMICRO_PAGESIZE + (2 ^ 64 - NUMICRO_PAGESIZE)) % 2 ^ 64
          = n * NUMICRO_PAGESIZE := by
        have h64 : (2 : Nat) ^ 64 = 18446744073709551616 := by norm_num
        simp only [NUMICRO_PAGESIZE, h64] at hsz ⊢
        omega
      have hrs : (nu_m032_fmc_cmd env FMC_ISPCMD_ERASE uA 0 rs s).1 = rs :=
        fmc_rdata env _ uA 0 rs s (by decide)
      obtain ⟨s2, hrun, hcmds, htr⟩ := ih f ((uA + NUMICRO_PAGESIZE) % 2 ^ 32) rs
        (platform_delay 100 (nu_m032_fmc_cmd env FMC_ISPCMD_ERASE uA 0 rs s).2)
        (by omega)
        (by
          have h64 : (2 : Nat) ^ 64 = 18446744073709551616 := by norm_num
          simp only [NUMICRO_PAGESIZE, h64] at hsz ⊢
          omega)
        (Nat.mod_lt _ (by norm_num))
      refine ⟨s2, ?_, ?_, ?_⟩
      · simp only [eraseLoop, if_neg hne, hstep, hrs]
        exact hrun
      · rw [hcmds]
        simp only [delay_cmds, fmc_cmds]
        rw [List.range_succ_eq_map, List.map_cons, List.map_map]
        have hf0 : (uA + NUMICRO_PAGESIZE * 0) % 2 ^ 32 = uA := by
          simpa using Nat.mod_eq_of_lt huA
        have hfun :
            ((fun i => ({ cmd := FMC_ISPCMD_ERASE, addr := ((uA + NUMICRO_PAGESIZE) % 2 ^ 32 + NUMICRO_PAGESIZE * i) % 2 ^ 32, wdata := 0 } : IspCmd)) : Nat → IspCmd) =
            (fun i => ({ cmd := FMC_ISPCMD_ERASE, addr := (uA + NUMICRO_PAGESIZE * i) % 2 ^ 32, wdata := 0 } : IspCmd)) ∘ Nat.succ := by
          funext i
          simp only [Function.comp_apply, IspCmd.mk.injEq, true_and, and_true,
            Nat.succ_eq_add_one]
          have harith : uA + NUMICRO_PAGESIZE + NUMICRO_PAGESIZE * i
              = uA + NUMICRO_PAGESIZE * (i + 1) := by ring
          rw [Nat.mod_add_mod, harith]
        rw [hfun]
        simp [hf0]
        have h32 : (2 : Nat) ^ 32 = 4294967296 := by norm_num
        rw [h32] at huA
        omega
      · refine TraceExt_trans (TraceExt_trans (fmc_TraceExt env _ uA 0 rs s) ?_) htr
        exact TraceExt_delay 100 _ (by simp [evOk])

theorem writeLoop_spec (env : Nat → Nat) (buf : Nat → Nat) :
    ∀ (n fuel uA i0 rs : Nat) (s : St), n ≤ fuel → n * 4 < 2 ^ 64 → uA < 2 ^ 32 →
      ∃ s2, writeLoop env buf fuel (n * 4) uA i0 rs s = some (rs, s2) ∧
        s2.cmds = s.cmds ++ (List.range n).map
          (fun i => { cmd := FMC_ISPCMD_WRITE, addr := (uA + 4 * i) % 2 ^ 32,
                      wdata := buf (i0 + i) % 2 ^ 32 }) ∧
        TraceExt (evOk fmcW (fmcR FMC_ISPCMD_WRITE)) s s2 := by
  intro n
  induction n with
  | zero =>
    intro fuel uA i0 rs s _ _ _
    refine ⟨s, ?_, by simp, TraceExt_refl _ _⟩
    cases fuel <;> simp [writeLoop]
  | succ n ih =>
    intro fuel uA i0 rs s hfuel hsz huA
    cases fuel with
    | zero => omega
    | succ f =>
      have hne : ¬ (n + 1) * 4 = 0 := by simp
      have hstep : ((n + 1) * 4 + (2 ^ 64 - 4)) % 2 ^ 64 = n * 4 := by
        have h64 : (2 : Nat) ^ 64 = 18446744073709551616 := by norm_num
        simp only [h64] at hsz ⊢
        omega
      have hrs : (nu_m032_fmc_cmd env FMC_ISPCMD_WRITE uA (buf i0 % 2 ^ 32) rs s).1 = rs :=
        fmc_rdata env _ uA _ rs s (by decide)
      obtain ⟨s2, hrun, hcmds, htr⟩ := ih f ((uA + 4) % 2 ^ 32) (i0 + 1) rs
        (platform_delay 10 (nu_m032_fmc_cmd env FMC_ISPCMD_WRITE uA (buf i0 % 2 ^ 32) rs s).2)
        (by omega) (by omega) (Nat.mod_lt _ (by norm_num))
      refine ⟨s2, ?_, ?_, ?_⟩
      · simp only [writeLoop, if_neg hne, hstep, hrs]
        exact hrun
      · rw [hcmds]
        simp only [delay_cmds, fmc_cmds]
        rw [List.range_succ_eq_map, List.map_cons, List.map_map]
        have hf0 : (uA + 4 * 0) % 2 ^ 32 = uA := by
          simpa using Nat.mod_eq_of_lt huA
        have hfun :
            ((fun i => ({ cmd := FMC_ISPCMD_WRITE, addr := ((uA + 4) % 2 ^ 32 + 4 * i) % 2 ^ 32, wdata := buf (i0 + 1 + i) % 2 ^ 32 } : IspCmd)) : Nat → IspCmd) =
            (fun i => ({ cmd := FMC_ISPCMD_WRITE, addr := (uA + 4 * i) % 2 ^ 32, wdata := buf (i0 + i) % 2 ^ 32 } : IspCmd)) ∘ Nat.succ := by
          funext i
          simp only [Function.comp_apply, IspCmd.mk.injEq, true_and,
            Nat.succ_eq_add_one]
          constructor
          · have harith : uA + 4 + 4 * i = uA + 4 * (i + 1) := by ring
            rw [Nat.mod_add_mod, harith]
          · have harith : i0 + 1 + i = i0 + (i + 1) := by ring
            rw [harith]
        rw [hfun]
        simp [hf0]
        have h32 : (2 : Nat) ^ 32 = 4294967296 := by norm_num
        rw [h32] at huA
        omega
      · refine TraceExt_trans
          (TraceExt_trans (fmc_TraceExt env FMC_ISPCMD_WRITE uA (buf i0 % 2 ^ 32) rs s) ?_)
          htr
        exact TraceExt_delay 10 _ (by simp [evOk])

theorem readPageLoop_spec (env : Nat → Nat) :
    ∀ (n fuel uA : Nat) (s : St), n ≤ fuel → n * 4 < 2 ^ 64 →
      ∃ s2, readPageLoop env fuel (n * 4) uA s = some s2 := by
  intro n
  induction n with
  | zero =>
    intro fuel uA s _ _
    refine ⟨s, ?_⟩
    cases fuel <;> simp [readPageLoop]
  | succ n ih =>
    intro fuel uA s hfuel hsz
    cases fuel with
    | zero => omega
    | succ f =>
      have hne : ¬ (n + 1) * 4 = 0 := by simp
      have hstep : ((n + 1) * 4 + (2 ^ 64 - 4)) % 2 ^ 64 = n * 4 := by
        have h64 : (2 : Nat) ^ 64 = 18446744073709551616 := by norm_num
        simp only [h64] at hsz ⊢
        omega
      obtain ⟨s2, hrun⟩ := ih f ((uA + 4) % 2 ^ 32)
        ((nu_m032_fmc_cmd env FMC_ISPCMD_READ uA 0 0 s).2) (by omega) (by omega)
      refine ⟨s2, ?_⟩
      simp only [readPageLoop, if_neg hne, hstep]
      exact hrun

theorem evOk_init_device : ∀ e,
    evOk [NUMICRO_SYS_REGLCTL, NUMICRO_SYSCLK_AHBCLK, NUMICRO_FLASH_ISPCON]
      [NUMICRO_SYS_REGLCTL, NUMICRO_SYSCLK_AHBCLK, NUMICRO_FLASH_ISPCON] e →
    evOk deviceRegs deviceRegs e := by
  intro e he
  cases e with
  | wr b v =>
    simp [evOk, deviceRegs] at he ⊢
    tauto
  | rd b v =>
    simp [evOk, deviceRegs] at he ⊢
    tauto
  | delay ms => simp [evOk]

theorem evOk_fmc_device (c : Nat) : ∀ e,
    evOk fmcW (fmcR c) e → evOk deviceRegs deviceRegs e := by
  intro e he
  cases e with
  | wr b v =>
    simp [evOk, fmcW, deviceRegs] at he ⊢
    tauto
  | rd b v =>
    simp only [evOk, fmcR] at he
    split at he <;> simp [evOk, deviceRegs] at he ⊢ <;> tauto
  | delay ms => simp [evOk]

theorem device_not_security : ∀ e, evOk deviceRegs deviceRegs e → ¬ touchesSecurity e := by
  intro e he hsec
  obtain ⟨a, ha, hin⟩ := hsec
  cases e with
  | wr b v =>
    simp [eventAddr] at ha
    subst ha
    simp [evOk, deviceRegs] at he
    rcases he with rfl | rfl | rfl | rfl | rfl | rfl | rfl | rfl <;>
      exact absurd hin (by unfold inSecurityRegion; decide)
  | rd b v =>
    simp [eventAddr] at ha
    subst ha
    simp [evOk, deviceRegs] at he
    rcases he with rfl | rfl | rfl | rfl | rfl | rfl | rfl | rfl <;>
      exact absurd hin (by unfold inSecurityRegion; decide)
  | delay ms => simp [eventAddr] at ha

theorem erase_aprom_spec (env : Nat → Nat) (s : St) :
    ∃ s2, nu_m032_cmd_erase_aprom env s = some (true, s2) ∧
      s2.cmds = s.cmds ++ (List.range 128).map
        (fun i => { cmd := FMC_ISPCMD_ERASE,
                    addr := (NUMICRO_APROM_BASE + NUMICRO_PAGESIZE * i) % 2 ^ 32,
                    wdata := 0 }) ∧
      TraceExt (evOk deviceRegs deviceRegs) s s2 := by
  obtain ⟨s2, hrun, hcmds, htr⟩ := eraseLoop_spec env 128 NUMICRO_APROM_SIZE
    NUMICRO_APROM_BASE 0 ((nu_m032_init_isp env ISPCON_APUEN s).2)
    (by decide) (by decide) (by decide)
  have hsz : (128 : Nat) * NUMICRO_PAGESIZE = NUMICRO_APROM_SIZE := by decide
  rw [hsz] at hrun
  refine ⟨s2, ?_, ?_, ?_⟩
  · simp only [nu_m032_cmd_erase_aprom]
    rw [if_neg (by simp), hrun]
  · rw [hcmds]
    simp
  · exact TraceExt_trans
      (TraceExt_mono evOk_init_device (init_TraceExt env ISPCON_APUEN s))
      (TraceExt_mono (evOk_fmc_device FMC_ISPCMD_ERASE) htr)

theorem erase_ldrom_spec (env : Nat → Nat) (s : St) :
    ∃ s2, nu_m032_cmd_erase_ldrom env s = some (true, s2) ∧
      s2.cmds = s.cmds ++ (List.range 4).map
        (fun i => { cmd := FMC_ISPCMD_ERASE,
                    addr := (NUMICRO_LDROM_BASE + NUMICRO_PAGESIZE * i) % 2 ^ 32,
                    wdata := 0 }) ∧
      TraceExt (evOk deviceRegs deviceRegs) s s2 := by
  obtain ⟨s2, hrun, hcmds, htr⟩ := eraseLoop_spec env 4 NUMICRO_LDROM_SIZE
    NUMICRO_LDROM_BASE 0 ((nu_m032_init_isp env ISPCON_LDUEN s).2)
    (by decide) (by decide) (by decide)
  have hsz : (4 : Nat) * NUMICRO_PAGESIZE = NUMICRO_LDROM_SIZE := by decide
  rw [hsz] at hrun
  refine ⟨s2, ?_, ?_, ?_⟩
  · simp only [nu_m032_cmd_erase_ldrom]
    rw [if_neg (by simp), hrun]
  · rw [hcmds]
    simp
  · exact TraceExt_trans
      (TraceExt_mono evOk_init_device (init_TraceExt env ISPCON_LDUEN s))
      (TraceExt_mono (evOk_fmc_device FMC_ISPCMD_ERASE) htr)

theorem erase_sprom_spec (env : Nat → Nat) (s : St) :
    ∃ s2, nu_m032_cmd_erase_sprom env s = some (true, s2) := by
  obtain ⟨s2, hrun, hcmds, htr⟩ := eraseLoop_spec env 1 NUMICRO_SPROM_SIZE
    NUMICRO_SPROM_BASE 0 ((nu_m032_init_isp env ISPCON_SPUEN s).2)
    (by decide) (by decide) (by decide)
  have hsz : (1 : Nat) * NUMICRO_PAGESIZE = NUMICRO_SPROM_SIZE := by decide
  rw [hsz] at hrun
  refine ⟨s2, ?_⟩
  simp only [nu_m032_cmd_erase_sprom]
  rw [if_neg (by simp), hrun]

theorem erase_mass_spec (env : Nat → Nat) (s : St) :
    ∃ s1 s2, nu_m032_cmd_erase_aprom env s = some (true, s1) ∧
      nu_m032_cmd_erase_ldrom env s1 = some (true, s2) ∧
      nu_m032_cmd_erase_mass env s = some (true, s2) := by
  obtain ⟨s1, hrun1, hcmds1, htr1⟩ := erase_aprom_spec env s
  obtain ⟨s2, hrun2, hcmds2, htr2⟩ := erase_ldrom_spec env s1
  refine ⟨s1, s2, hrun1, hrun2, ?_⟩
  simp only [nu_m032_cmd_erase_mass, hrun1, hrun2]

theorem flash_erase_spec (env : Nat → Nat) (addr len : Nat) (s : St)
    (h512 : len % NUMICRO_PAGESIZE = 0) (hlen : len < 2 ^ 64) (haddr : addr < 2 ^ 32) :
    ∃ s2, nu_m032_flash_erase env addr len s = some (0, s2) ∧
      s2.cmds = s.cmds ++ (List.range (len / NUMICRO_PAGESIZE)).map
        (fun i => { cmd := FMC_ISPCMD_ERASE, addr := (addr + NUMICRO_PAGESIZE * i) % 2 ^ 32,
                    wdata := 0 }) ∧
      TraceExt (evOk deviceRegs deviceRegs) s s2 := by
  have hdvd : NUMICRO_PAGESIZE ∣ len := Nat.dvd_of_mod_eq_zero h512
  have hmul : (len / NUMICRO_PAGESIZE) * NUMICRO_PAGESIZE = len := Nat.div_mul_cancel hdvd
  obtain ⟨s2, hrun, hcmds, htr⟩ := eraseLoop_spec env (len / NUMICRO_PAGESIZE) len addr 0
    ((nu_m032_init_isp env (ISPCON_APUEN ||| ISPCON_LDUEN) s).2)
    (Nat.div_le_self _ _) (by rw [hmul]; exact hlen) haddr
  rw [hmul] at hrun
  refine ⟨s2, ?_, ?_, ?_⟩
  · simp only [nu_m032_flash_erase]
    rw [if_neg (by simp), Nat.mod_eq_of_lt hlen, Nat.mod_eq_of_lt haddr, hrun]
  · rw [hcmds]
    simp
  · exact TraceExt_trans
      (TraceExt_mono evOk_init_device (init_TraceExt env _ s))
      (TraceExt_mono (evOk_fmc_device FMC_ISPCMD_ERASE) htr)

theorem flash_write_spec (env : Nat → Nat) (dest : Nat) (buf : Nat → Nat) (len : Nat)
    (s : St) (h4 : len % 4 = 0) (hlen : len < 2 ^ 64) (hdest : dest < 2 ^ 32) :
    ∃ s2, nu_m032_flash_write env dest buf len s = some (0, s2) ∧
      s2.cmds = s.cmds ++ (List.range (len / 4)).map
        (fun i => { cmd := FMC_ISPCMD_WRITE, addr := (dest + 4 * i) % 2 ^ 32,
                    wdata := buf i % 2 ^ 32 }) ∧
      TraceExt (evOk fmcW (fmcR FMC_ISPCMD_WRITE)) s s2 := by
  have hdvd : 4 ∣ len := Nat.dvd_of_mod_eq_zero h4
  have hmul : (len / 4) * 4 = len := Nat.div_mul_cancel hdvd
  obtain ⟨s2, hrun, hcmds, htr⟩ := writeLoop_spec env buf (len / 4) len dest 0 0 s
    (Nat.div_le_self _ _) (by rw [hmul]; exact hlen) hdest
  rw [hmul] at hrun
  refine ⟨s2, ?_, ?_, htr⟩
  · simp only [nu_m032_flash_write]
    rw [Nat.mod_eq_of_lt hlen, Nat.mod_eq_of_lt hdest, hrun]
  · rw [hcmds]
    simp

theorem erase_chip_spec (env : Nat → Nat) (s : St) :
    nu_m032_cmd_erase_chip env s =
      (true, platform_delay 100 ((nu_m032_fmc_cmd env FMC_ISPCMD_CHIPERASE 0x0 0x0 0
        ((nu_m032_init_isp env (ISPCON_APUEN ||| ISPCON_LDUEN ||| ISPCON_SPUEN) s).2)).2)) := by
  simp only [nu_m032_cmd_erase_chip]
  rw [if_neg (by simp)]

theorem read_configs_fst (env : Nat → Nat) (s : St) :
    (nu_m032_read_configs env s).1 = true := by
  simp only [nu_m032_read_configs]
  rw [if_neg (by simp)]

theorem read_uid_fst (env : Nat → Nat) (s : St) :
    (nu_m032_read_uid env s).1 = true := by
  simp only [nu_m032_read_uid]
  rw [if_neg (by simp)]

theorem read_cid_fst (env : Nat → Nat) (s : St) :
    (nu_m032_read_cid env s).1 = true := by
  simp only [nu_m032_read_cid]
  rw [if_neg (by simp)]

theorem read_aprom_page1_spec (env : Nat → Nat) (s : St) :
    ∃ s2, nu_m032_read_aprom_page1 env s = some (true, s2) := by
  have h4 : (128 : Nat) * 4 = NUMICRO_PAGESIZE := by decide
  obtain ⟨s1, hrun1⟩ := readPageLoop_spec env 128 NUMICRO_PAGESIZE NUMICRO_APROM_BASE
    ((nu_m032_init_isp env 0 s).2) (by decide) (by decide)
  obtain ⟨s2, hrun2⟩ := readPageLoop_spec env 128 NUMICRO_PAGESIZE
    (NUMICRO_APROM_BASE + NUMICRO_PAGESIZE) s1 (by decide) (by decide)
  rw [h4] at hrun1 hrun2
  refine ⟨s2, ?_⟩
  simp only [nu_m032_read_aprom_page1]
  rw [if_neg (by simp), hrun1]
  simp [hrun2]

-- Claim theorems.

/-- C3 (confirmed): for every erase call with start address `addr` and length
`len` a multiple of 512 (within the 32-bit address and 64-bit size types),
exactly `len / 512` erase commands are issued, and their addresses form the
arithmetic sequence `addr, addr + 512, addr + 2*512, …` in order (in the
unsigned 32-bit address arithmetic of the hardware). -/
theorem claim_C3 (env : Nat → Nat) (addr len : Nat) (s : St)
    (h512 : len % 512 = 0) (hlen : len < 2 ^ 64) (haddr : addr < 2 ^ 32) :
    ∃ s2, nu_m032_flash_erase env addr len s = some (0, s2) ∧
      (s2.cmds).length = s.cmds.length + len / 512 ∧
      s2.cmds = s.cmds ++ (List.range (len / 512)).map
        (fun i => { cmd := FMC_ISPCMD_ERASE, addr := (addr + 512 * i) % 2 ^ 32,
                    wdata := 0 }) := by
  obtain ⟨s2, hrun, hcmds, _⟩ := flash_erase_spec env addr len s
    (by simpa [NUMICRO_PAGESIZE] using h512) hlen haddr
  refine ⟨s2, hrun, ?_, ?_⟩
  · rw [hcmds]
    simp [NUMICRO_PAGESIZE]
  · simpa [NUMICRO_PAGESIZE] using hcmds

/-- C3 witness: a concrete 1024-byte erase at address 0 issues exactly two
erase commands, at 0 and 512. -/
theorem claim_C3_witness :
    (1024 : Nat) % 512 = 0 ∧
    (∃ s2, nu_m032_flash_erase envZero 0 1024 st0 = some (0, s2) ∧
      (s2.cmds).length = st0.cmds.length + 1024 / 512 ∧
      s2.cmds = st0.cmds ++ (List.range (1024 / 512)).map
        (fun i => { cmd := FMC_ISPCMD_ERASE, addr := (0 + 512 * i) % 2 ^ 32,
                    wdata := 0 })) :=
  ⟨by decide, claim_C3 envZero 0 1024 st0 (by decide) (by decide) (by decide)⟩

/-- C4 (confirmed): for every write call with length `len` a multiple of 4
(within the C types), exactly `len / 4` write commands are issued; the i-th
command carries the i-th 32-bit word of the source buffer as payload and the
destination addresses advance by 4 per command. -/
theorem claim_C4 (env : Nat → Nat) (dest : Nat) (buf : Nat → Nat) (len : Nat) (s : St)
    (h4 : len % 4 = 0) (hlen : len < 2 ^ 64) (hdest : dest < 2 ^ 32) :
    ∃ s2, nu_m032_flash_write env dest buf len s = some (0, s2) ∧
      (s2.cmds).length = s.cmds.length + len / 4 ∧
      s2.cmds = s.cmds ++ (List.range (len / 4)).map
        (fun i => { cmd := FMC_ISPCMD_WRITE, addr := (dest + 4 * i) % 2 ^ 32,
                    wdata := buf i % 2 ^ 32 }) := by
  obtain ⟨s2, hrun, hcmds, _⟩ := flash_write_spec env dest buf len s h4 hlen hdest
  refine ⟨s2, hrun, ?_, hcmds⟩
  rw [hcmds]
  simp

/-- C4 witness: a concrete 8-byte write at address 0 issues exactly two
write commands with the two buffer words. -/
theorem claim_C4_witness :
    (8 : Nat) % 4 = 0 ∧
    (∃ s2, nu_m032_flash_write envZero 0 bufZero 8 st0 = some (0, s2) ∧
      (s2.cmds).length = st0.cmds.length + 8 / 4 ∧
      s2.cmds = st0.cmds ++ (List.range (8 / 4)).map
        (fun i => { cmd := FMC_ISPCMD_WRITE, addr := (0 + 4 * i) % 2 ^ 32,
                    wdata := bufZero i % 2 ^ 32 })) :=
  ⟨by decide, claim_C4 envZero 0 bufZero 8 st0 (by decide) (by decide) (by decide)⟩

/-- C7 (confirmed): the full-chip erase, after initializing the engine with
all three region-unlock bits, issues exactly one ISP command, with the
chip-erase opcode, address 0 and payload 0, and returns true. -/
theorem claim_C7 (env : Nat → Nat) (s : St) :
    ∃ s2, nu_m032_cmd_erase_chip env s = (true, s2) ∧
      s2.cmds = s.cmds ++ [{ cmd := FMC_ISPCMD_CHIPERASE, addr := 0, wdata := 0 }] := by
  refine ⟨_, erase_chip_spec env s, ?_⟩
  simp

/-- C8 (confirmed): the register unlocker returns true on every invocation,
the engine initializer returns 0 on every invocation, and every maintenance
operation returns success on every invocation, for every device behavior
(including silently timed-out commands). -/
theorem claim_C8 :
    (∀ (env : Nat → Nat) (s : St), (nu_m032_reg_unlock env s).1 = true) ∧
    (∀ (env : Nat → Nat) (x : Nat) (s : St), (nu_m032_init_isp env x s).1 = 0) ∧
    (∀ (env : Nat → Nat) (s : St), ∃ s2, nu_m032_cmd_erase_aprom env s = some (true, s2)) ∧
    (∀ (env : Nat → Nat) (s : St), ∃ s2, nu_m032_cmd_erase_ldrom env s = some (true, s2)) ∧
    (∀ (env : Nat → Nat) (s : St), ∃ s2, nu_m032_cmd_erase_sprom env s = some (true, s2)) ∧
    (∀ (env : Nat → Nat) (s : St), ∃ s2, nu_m032_cmd_erase_mass env s = some (true, s2)) ∧
    (∀ (env : Nat → Nat) (s : St), (nu_m032_cmd_erase_chip env s).1 = true) ∧
    (∀ s : St, (nu_m032_set_config0 s).1 = true) ∧
    (∀ s : St, (nu_m032_set_config1 s).1 = true) ∧
    (∀ s : St, (nu_m032_set_config2 s).1 = true) ∧
    (∀ (env : Nat → Nat) (s : St), (nu_m032_read_configs env s).1 = true) ∧
    (∀ (env : Nat → Nat) (s : St), (nu_m032_read_uid env s).1 = true) ∧
    (∀ (env : Nat → Nat) (s : St), (nu_m032_read_cid env s).1 = true) ∧
    (∀ (env : Nat → Nat) (s : St), ∃ s2, nu_m032_read_aprom_page1 env s = some (true, s2)) := by
  refine ⟨fun env s => rfl, fun env x s => init_fst env x s, ?_, ?_, ?_, ?_, ?_,
    fun s => rfl, fun s => rfl, fun s => rfl, read_configs_fst, read_uid_fst,
    read_cid_fst, ?_⟩
  · intro env s
    obtain ⟨s2, h, _, _⟩ := erase_aprom_spec env s
    exact ⟨s2, h⟩
  · intro env s
    obtain ⟨s2, h, _, _⟩ := erase_ldrom_spec env s
    exact ⟨s2, h⟩
  · intro env s
    exact erase_sprom_spec env s
  · intro env s
    obtain ⟨s1, s2, _, _, h⟩ := erase_mass_spec env s
    exact ⟨s2, h⟩
  · intro env s
    rw [erase_chip_spec]
  · intro env s
    exact read_aprom_page1_spec env s

/-- C5 (confirmed): mass erase reaches exactly the state produced by running
the APROM (main) erase immediately followed by the LDROM (loader) erase —
the identical register-access trace and command log — and no event of that
trace and no issued command touches the security (SPROM) region at any of
its base addresses. -/
theorem claim_C5 (env : Nat → Nat) (s : St) :
    ∃ s1 s2, nu_m032_cmd_erase_aprom env s = some (true, s1) ∧
      nu_m032_cmd_erase_ldrom env s1 = some (true, s2) ∧
      nu_m032_cmd_erase_mass env s = some (true, s2) ∧
      TraceExt (fun e => ¬ touchesSecurity e) s s2 ∧
      (∃ cs, s2.cmds = s.cmds ++ cs ∧ ∀ c ∈ cs,
        c.cmd = FMC_ISPCMD_ERASE ∧ c.addr + NUMICRO_PAGESIZE ≤ NUMICRO_SPROM_BASE) := by
  obtain ⟨s1, h1, hc1, ht1⟩ := erase_aprom_spec env s
  obtain ⟨s2, h2, hc2, ht2⟩ := erase_ldrom_spec env s1
  refine ⟨s1, s2, h1, h2, ?_, ?_, ?_⟩
  · simp only [nu_m032_cmd_erase_mass, h1, h2]
  · exact TraceExt_mono device_not_security (TraceExt_trans ht1 ht2)
  · refine ⟨(List.range 128).map
        (fun i => { cmd := FMC_ISPCMD_ERASE,
                    addr := (NUMICRO_APROM_BASE + NUMICRO_PAGESIZE * i) % 2 ^ 32,
                    wdata := 0 }) ++
      (List.range 4).map
        (fun i => { cmd := FMC_ISPCMD_ERASE,
                    addr := (NUMICRO_LDROM_BASE + NUMICRO_PAGESIZE * i) % 2 ^ 32,
                    wdata := 0 }), ?_, ?_⟩
    · rw [hc2, hc1, List.append_assoc]
    · intro c hc
      have h32 : (2 : Nat) ^ 32 = 4294967296 := by norm_num
      rcases List.mem_append.mp hc with h | h <;>
        obtain ⟨i, hi, rfl⟩ := List.mem_map.mp h <;>
        simp only [List.mem_range] at hi <;>
        refine ⟨rfl, ?_⟩ <;>
        simp only [NUMICRO_APROM_BASE, NUMICRO_LDROM_BASE, NUMICRO_PAGESIZE,
          NUMICRO_SPROM_BASE, h32] <;>
        omega

/-- C6 (confirmed): every executor invocation performs, before triggering,
exactly the write sequence opcode-to-ISPCMD, address-to-ISPADR, then (only
for the write opcode) payload-to-ISPDAT, then GO-to-ISPTRG; after the
trigger the data register is never written, and for non-read opcodes it is
never read. -/
theorem claim_C6 (env : Nat → Nat) (c a w r : Nat) (s : St) :
    ∃ rest, ((nu_m032_fmc_cmd env c a w r s).2).trace =
      s.trace ++ [Event.wr NUMICRO_FLASH_ISPCMD c, Event.wr NUMICRO_FLASH_ISPADR a] ++
        (if c = FMC_ISPCMD_WRITE then [Event.wr NUMICRO_FLASH_ISPDAT w] else []) ++
        [Event.wr NUMICRO_FLASH_ISPTRG ISPTRG_ISPGO] ++ rest ∧
      (∀ v, Event.wr NUMICRO_FLASH_ISPDAT v ∉ rest) ∧
      (c ≠ FMC_ISPCMD_READ → ∀ v, Event.rd NUMICRO_FLASH_ISPDAT v ∉ rest) := by
  obtain ⟨u, hu, hP⟩ := fmc_rest_TraceExt env c a w r s
  refine ⟨u, ?_, ?_, ?_⟩
  · rw [hu, fmcPre_trace]
    simp [List.append_assoc]
  · intro v hv
    have h := hP _ hv
    simp [evOk] at h
    exact absurd h (by decide)
  · intro hc v hv
    have h := hP _ hv
    simp [evOk, fmcR, hc] at h
    rcases h with h | h <;> exact absurd h (by decide)

/-- C6 witness: instantiation at the erase opcode in the all-zero
environment. -/
theorem claim_C6_witness :
    ∃ rest, ((nu_m032_fmc_cmd envZero FMC_ISPCMD_ERASE 0 0 0 st0).2).trace =
      st0.trace ++ [Event.wr NUMICRO_FLASH_ISPCMD FMC_ISPCMD_ERASE,
        Event.wr NUMICRO_FLASH_ISPADR 0] ++
        (if FMC_ISPCMD_ERASE = FMC_ISPCMD_WRITE
          then [Event.wr NUMICRO_FLASH_ISPDAT 0] else []) ++
        [Event.wr NUMICRO_FLASH_ISPTRG ISPTRG_ISPGO] ++ rest ∧
      (∀ v, Event.wr NUMICRO_FLASH_ISPDAT v ∉ rest) ∧
      (FMC_ISPCMD_ERASE ≠ FMC_ISPCMD_READ → ∀ v, Event.rd NUMICRO_FLASH_ISPDAT v ∉ rest) :=
  claim_C6 envZero FMC_ISPCMD_ERASE 0 0 0 st0

/-- C1 counterexample: in an environment where the GO bit never clears, the
polling budget is exhausted and the executor returns without a single access
(read or write) to the ISP-control register — contradicting the claim that
the flag-fail check and clear happen after a timeout as well. -/
theorem claim_C1_counterexample :
    (((nu_m032_fmc_cmd envBusy FMC_ISPCMD_ERASE 0x0 0x0 0 st0).2).trace.all
      (fun e => !(touchesAddr NUMICRO_FLASH_ISPCON e))) = true := by
  decide

/-- C1 (corrected): only when the polling loop completes does the executor
read the ISP-control register and, if the flag-fail bit is set in the value
read, write that value back; on a poll timeout it returns without touching
the ISP-control register at all. -/
theorem claim_C1_amended (env : Nat → Nat) (c a w r : Nat) (s : St) :
    (fmcCompleted env c a w s = true →
      ∃ v, Event.rd NUMICRO_FLASH_ISPCON v ∈ ((nu_m032_fmc_cmd env c a w r s).2).trace ∧
        (v &&& ISPCON_ISPFF ≠ 0 →
          Event.wr NUMICRO_FLASH_ISPCON v ∈ ((nu_m032_fmc_cmd env c a w r s).2).trace)) ∧
    (fmcCompleted env c a w s = false →
      TraceExt (fun e => touchesAddr NUMICRO_FLASH_ISPCON e = false) s
        ((nu_m032_fmc_cmd env c a w r s).2)) := by
  constructor
  · intro hdone
    have hd : (pollIspgo env 100 (fmcPre c a w s)).1 = true := hdone
    refine ⟨env ((pollIspgo env 100 (fmcPre c a w s)).2).reads % 2 ^ 32, ?_, ?_⟩
    · simp only [nu_m032_fmc_cmd, hd, if_true]
      split_ifs <;> simp [target_mem_read32, target_mem_write32]
    · intro hff
      simp only [nu_m032_fmc_cmd, hd, if_true]
      split_ifs with h1 h2 <;> simp [target_mem_read32, target_mem_write32] <;>
        first
          | rfl
          | exact absurd hff (by simp_all [target_mem_read32])
  · intro hto
    have hd : (pollIspgo env 100 (fmcPre c a w s)).1 = false := hto
    have hres : (nu_m032_fmc_cmd env c a w r s).2 = (pollIspgo env 100 (fmcPre c a w s)).2 := by
      simp [nu_m032_fmc_cmd, hd]
    rw [hres]
    refine TraceExt_trans (TraceExt_of_eq _ (fmcPre_trace c a w s) ?_)
      (TraceExt_mono ?_ (pollIspgo_TraceExt env 100 _))
    · intro e he
      rcases List.mem_append.mp he with h | h
      · rcases List.mem_append.mp h with h2 | h2
        · simp at h2
          rcases h2 with rfl | rfl <;>
            simp [touchesAddr, NUMICRO_FLASH_ISPCMD, NUMICRO_FLASH_ISPADR,
              NUMICRO_FLASH_ISPCON]
        · split at h2
          · simp at h2
            subst h2
            simp [touchesAddr, NUMICRO_FLASH_ISPDAT, NUMICRO_FLASH_ISPCON]
          · simp at h2
      · simp at h
        subst h
        simp [touchesAddr, NUMICRO_FLASH_ISPTRG, NUMICRO_FLASH_ISPCON]
    · intro e he
      cases e with
      | wr b v => simp [evOk] at he
      | rd b v =>
        simp [evOk] at he
        subst he
        simp [touchesAddr, NUMICRO_FLASH_ISPTRG, NUMICRO_FLASH_ISPCON]
      | delay ms => rfl

/-- C1 witness: in the environment that always returns 64, the first poll
read sees GO clear (completion) and the ISPCON read returns 64 with the
flag-fail bit set, so the executor both reads and clears it. -/
theorem claim_C1_witness :
    fmcCompleted envFF FMC_ISPCMD_ERASE 0 0 st0 = true ∧
    (∃ v, Event.rd NUMICRO_FLASH_ISPCON v ∈
        ((nu_m032_fmc_cmd envFF FMC_ISPCMD_ERASE 0 0 0 st0).2).trace ∧
      (v &&& ISPCON_ISPFF ≠ 0 →
        Event.wr NUMICRO_FLASH_ISPCON v ∈
          ((nu_m032_fmc_cmd envFF FMC_ISPCMD_ERASE 0 0 0 st0).2).trace)) :=
  ⟨by decide, (claim_C1_amended envFF FMC_ISPCMD_ERASE 0 0 0 st0).1 (by decide)⟩

/-- C2 counterexample: with a matching core, a non-matching chip-ID read and
the pre-probe identifier 0x10001 (which does not fit in 16 bits), the probe
returns failure but leaves the identifier field at 1 ≠ 0x10001 — the
"restores the identifier to its pre-probe value" part of the claim is false. -/
theorem claim_C2_counterexample :
    (nu_m032_probe envZero tWide st0).1 = false ∧
    (nu_m032_probe envZero tWide st0).2.1.idcode ≠ tWide.idcode := by
  constructor <;> decide

/-- C2 (corrected): with a matching Cortex-M0 core, chip-ID 0x01132D00 makes
the probe install the driver name, RAM region (0x20000000, size 0x2000), the
main {0, 0x10000, 512}, loader {0x100000, 0x800, 512} and configuration
{0x300000, 12, 4} flash regions and the command list, and return success;
any other chip-ID value makes it return failure without registering
anything, with the identifier field set to its pre-probe value reduced
modulo 2^16 (an exact restore only when the pre-probe value fits in
16 bits). -/
theorem claim_C2_amended (env : Nat → Nat) (t : Target) (s : St)
    (hcpu : t.cpuid &&& CPUID_PARTNO_MASK = CORTEX_M0) :
    (env s.reads % 2 ^ 32 = 0x01132D00 →
      nu_m032_probe env t s =
        (true,
         { t with driver := "M032LD2AE",
                  ramRegions := t.ramRegions ++ [(0x20000000, 0x2000)],
                  flashRegions := t.flashRegions ++
                    [{ start := 0, length := 0x10000, blocksize := 512,
                       bufSize := 512, erased := 0xff },
                     { start := 0x100000, length := 0x800, blocksize := 512,
                       bufSize := 512, erased := 0xff },
                     { start := 0x300000, length := 12, blocksize := 4,
                       bufSize := 4, erased := 0xff }],
                  commandsRegistered := true },
         (target_mem_read32 env NUMICRO_CHIP_ID_ADDRESS s).2)) ∧
    (env s.reads % 2 ^ 32 ≠ 0x01132D00 →
      nu_m032_probe env t s =
        (false, { t with idcode := t.idcode % 2 ^ 16 },
         (target_mem_read32 env NUMICRO_CHIP_ID_ADDRESS s).2)) := by
  constructor
  · intro hchip
    have h32 : (2 : Nat) ^ 32 = 4294967296 := by norm_num
    rw [h32] at hchip
    simp [nu_m032_probe, target_add_ram, nu_m032_add_flash, target_mem_read32,
      hcpu, hchip, NUMICRO_APROM_BASE, NUMICRO_APROM_SIZE, NUMICRO_PAGESIZE,
      NUMICRO_LDROM_BASE, NUMICRO_CONFIG_BASE]
  · intro hchip
    simp only [nu_m032_probe]
    rw [if_pos hcpu]
    rw [if_neg (by simpa [target_mem_read32] using hchip)]

/-- C2 witness: a concrete matching probe (16-bit pre-probe identifier,
chip-ID environment) installs the regions and succeeds. -/
theorem claim_C2_witness :
    nu_m032_probe envChip tNarrow st0 =
      (true,
       { tNarrow with
           driver := "M032LD2AE",
           ramRegions := tNarrow.ramRegions ++ [(0x20000000, 0x2000)],
           flashRegions := tNarrow.flashRegions ++
             [{ start := 0, length := 0x10000, blocksize := 512,
                bufSize := 512, erased := 0xff },
              { start := 0x100000, length := 0x800, blocksize := 512,
                bufSize := 512, erased := 0xff },
              { start := 0x300000, length := 12, blocksize := 4,
                bufSize := 4, erased := 0xff }],
           commandsRegistered := true },
       (target_mem_read32 envChip NUMICRO_CHIP_ID_ADDRESS st0).2) :=
  (claim_C2_amended envChip tNarrow st0 (by decide)).1 (by decide)

/-- C9 (confirmed): the probe saves the pre-probe identifier into a 16-bit
local, so whenever it rejects, the restored identifier field equals the
original reduced modulo 2^16: exact for identifiers below 2^16, and strictly
different (upper bits lost) for any wider identifier. -/
theorem claim_C9 (env : Nat → Nat) (t : Target) (s : St)
    (hrej : (nu_m032_probe env t s).1 = false) :
    (nu_m032_probe env t s).2.1.idcode = t.idcode % 2 ^ 16 ∧
    (t.idcode < 2 ^ 16 → (nu_m032_probe env t s).2.1.idcode = t.idcode) ∧
    (2 ^ 16 ≤ t.idcode → (nu_m032_probe env t s).2.1.idcode ≠ t.idcode) := by
  have hmain : (nu_m032_probe env t s).2.1.idcode = t.idcode % 2 ^ 16 := by
    by_cases hcpu : t.cpuid &&& CPUID_PARTNO_MASK = CORTEX_M0
    · by_cases hchip : (target_mem_read32 env NUMICRO_CHIP_ID_ADDRESS s).1 = 0x01132D00
      · exfalso
        simp [nu_m032_probe, hcpu, hchip] at hrej
      · simp [nu_m032_probe, hcpu, hchip]
    · simp [nu_m032_probe, hcpu]
  refine ⟨hmain, fun hlt => by rw [hmain, Nat.mod_eq_of_lt hlt], fun hge => ?_⟩
  rw [hmain]
  have h16 : (2 : Nat) ^ 16 = 65536 := by norm_num
  have hm : t.idcode % 2 ^ 16 < 2 ^ 16 := Nat.mod_lt _ (by norm_num)
  omega

/-- C9 witness: the concrete rejected probe with pre-probe identifier
0x10001 restores 0x10001 mod 2^16 = 1. -/
theorem claim_C9_witness :
    (nu_m032_probe envZero tWide st0).1 = false ∧
    (nu_m032_probe envZero tWide st0).2.1.idcode = tWide.idcode % 2 ^ 16 :=
  ⟨by decide, (claim_C9 envZero tWide st0 (by decide)).1⟩

/-- C10 counterexample: in an environment whose reads return 64 (GO clear,
flag-fail set), a 4-byte flash write performs a write to the ISP-control
register (0x4000C000) — an address outside the claimed set {command,
address, data, trigger} — so "the only target registers it writes are the
ISP command, address, data, and trigger registers" is false. -/
theorem claim_C10_counterexample :
    ((nu_m032_flash_write envFF 0 bufZero 4 st0).map
      (fun q => q.2.trace.contains (Event.wr NUMICRO_FLASH_ISPCON 64)) = some true) ∧
    ¬ (NUMICRO_FLASH_ISPCON ∈ [NUMICRO_FLASH_ISPCMD, NUMICRO_FLASH_ISPADR,
        NUMICRO_FLASH_ISPDAT, NUMICRO_FLASH_ISPTRG]) := by
  constructor <;> decide

/-- C10 (corrected): the flash write operation never accesses the
lock-control or clock-gate registers (it never invokes the register
unlocker or the engine initializer), and the only registers it writes are
the ISP command, address, data, trigger — and, when a command's flag-fail
bit reads set, the ISP-control register; the flash erase operation, by
contrast, does run the initializer (it writes the first unlock key to the
lock-control register). -/
theorem claim_C10_amended :
    (∀ (env : Nat → Nat) (dest : Nat) (buf : Nat → Nat) (len : Nat) (s : St),
      len % 4 = 0 → len < 2 ^ 64 → dest < 2 ^ 32 →
      ∃ s2, nu_m032_flash_write env dest buf len s = some (0, s2) ∧
        TraceExt (fun e => evOk fmcW (fmcR FMC_ISPCMD_WRITE) e ∧
          touchesAddr NUMICRO_SYS_REGLCTL e = false ∧
          touchesAddr NUMICRO_SYSCLK_AHBCLK e = false) s s2) ∧
    (∀ (env : Nat → Nat) (addr : Nat) (s : St),
      ∃ s2, nu_m032_flash_erase env addr 0 s = some (0, s2) ∧
        Event.wr NUMICRO_SYS_REGLCTL 0x59 ∈ s2.trace) := by
  constructor
  · intro env dest buf len s h4 hlen hdest
    obtain ⟨s2, hrun, _, htr⟩ := flash_write_spec env dest buf len s h4 hlen hdest
    refine ⟨s2, hrun, TraceExt_mono ?_ htr⟩
    intro e he
    refine ⟨he, ?_, ?_⟩
    · cases e with
      | wr b v =>
        simp [evOk, fmcW] at he
        rcases he with rfl | rfl | rfl | rfl | rfl <;>
          simp [touchesAddr, NUMICRO_FLASH_ISPCMD, NUMICRO_FLASH_ISPADR,
            NUMICRO_FLASH_ISPDAT, NUMICRO_FLASH_ISPTRG, NUMICRO_FLASH_ISPCON,
            NUMICRO_SYS_REGLCTL]
      | rd b v =>
        simp [evOk, fmcR, FMC_ISPCMD_WRITE, FMC_ISPCMD_READ] at he
        rcases he with rfl | rfl <;>
          simp [touchesAddr, NUMICRO_FLASH_ISPTRG, NUMICRO_FLASH_ISPCON,
            NUMICRO_SYS_REGLCTL]
      | delay ms => rfl
    · cases e with
      | wr b v =>
        simp [evOk, fmcW] at he
        rcases he with rfl | rfl | rfl | rfl | rfl <;>
          simp [touchesAddr, NUMICRO_FLASH_ISPCMD, NUMICRO_FLASH_ISPADR,
            NUMICRO_FLASH_ISPDAT, NUMICRO_FLASH_ISPTRG, NUMICRO_FLASH_ISPCON,
            NUMICRO_SYSCLK_AHBCLK]
      | rd b v =>
        simp [evOk, fmcR, FMC_ISPCMD_WRITE, FMC_ISPCMD_READ] at he
        rcases he with rfl | rfl <;>
          simp [touchesAddr, NUMICRO_FLASH_ISPTRG, NUMICRO_FLASH_ISPCON,
            NUMICRO_SYSCLK_AHBCLK]
      | delay ms => rfl
  · intro env addr s
    refine ⟨(nu_m032_init_isp env (ISPCON_APUEN ||| ISPCON_LDUEN) s).2, ?_, ?_⟩
    · simp only [nu_m032_flash_erase]
      rw [if_neg (by simp)]
      simp [eraseLoop]
    · rw [init_trace]
      simp

/-- C10 witness: a concrete 4-byte write in the all-zero environment
completes with the claimed register-access discipline. -/
theorem claim_C10_witness :
    (4 : Nat) % 4 = 0 ∧
    (∃ s2, nu_m032_flash_write envZero 0 bufZero 4 st0 = some (0, s2) ∧
      TraceExt (fun e => evOk fmcW (fmcR FMC_ISPCMD_WRITE) e ∧
        touchesAddr NUMICRO_SYS_REGLCTL e = false ∧
        touchesAddr NUMICRO_SYSCLK_AHBCLK e = false) st0 s2) :=
  ⟨by decide,
    claim_C10_amended.1 envZero 0 bufZero 4 st0 (by decide) (by decide) (by decide)⟩
